import Mathlib

/-!
Verification of the marker-detection / rotation pipeline in `src/index.js`.

The JavaScript source is embedded shallowly: pixel coordinates and marker
centroids live in `ℝ` (JS numbers, idealised as reals), 8-bit colour channel
values in `ℕ`, and the JS boolean helpers become `Bool`-valued Lean functions.
`Math.hypot` is the Euclidean norm via `Real.sqrt`, `Math.atan2` is
`Complex.arg`, and `Math.round` is Mathlib's `round` (both are
round-half-toward-positive-infinity).
-/

open Classical

/-- A pixel-space point, `{x, y}` in the source. -/
structure Point where
  x : ℝ
  y : ℝ

/-- `distance` (src/index.js line 31): `Math.hypot(p1.x - p2.x, p1.y - p2.y)`. -/
noncomputable def distance (p1 p2 : Point) : ℝ :=
  Real.sqrt ((p1.x - p2.x) ^ 2 + (p1.y - p2.y) ^ 2)

/-- `isRed` (line 78): max channel at least 110, red is the max, green and
blue each below half of red. -/
def isRed (r g b : ℕ) : Bool :=
  let m := Nat.max r (Nat.max g b)
  decide (110 ≤ m) && decide (r = m) &&
    decide ((g : ℚ) < (r : ℚ) * 0.5) && decide ((b : ℚ) < (r : ℚ) * 0.5)

/-- `isPink` (line 83): max channel at least 110, red is the max, blue above
80, green below half of red.  Note: the source places no upper bound on the
blue channel. -/
def isPink (r g b : ℕ) : Bool :=
  let m := Nat.max r (Nat.max g b)
  decide (110 ≤ m) && decide (r = m) &&
    decide ((80 : ℚ) < (b : ℚ)) && decide ((g : ℚ) < (r : ℚ) * 0.5)

/-- `isGreen` (line 88): max channel at least 110, green is the max, red and
blue each below half of green. -/
def isGreen (r g b : ℕ) : Bool :=
  let m := Nat.max r (Nat.max g b)
  decide (110 ≤ m) && decide (g = m) &&
    decide ((r : ℚ) < (g : ℚ) * 0.5) && decide ((b : ℚ) < (g : ℚ) * 0.5)

/-- The pink classifier as the specification words it: red is the maximum
channel, the maximum is at least the brightness floor 110, BOTH non-dominant
channels (green and blue) are below half the red value, and blue is above 80.
Stated from the spec for comparison with the source's `isPink`. -/
def pinkClaimed (r g b : ℕ) : Bool :=
  let m := Nat.max r (Nat.max g b)
  decide (110 ≤ m) && decide (r = m) &&
    decide ((g : ℚ) < (r : ℚ) * 0.5) && decide ((b : ℚ) < (r : ℚ) * 0.5) &&
    decide ((80 : ℚ) < (b : ℚ))

/-- `COLLINEARITY_THRESHOLD` (line 25). -/
def COLLINEARITY_THRESHOLD : ℝ := 50

/-- `CLUSTER_RADIUS` (line 24). -/
def CLUSTER_RADIUS : ℝ := 100

/-- `intervallTolerance` (line 26), the default interval tolerance constant. -/
def intervallTolerance : ℝ := 0.8

/-- `pointLineDistance` (line 94): perpendicular distance from `p` to the line
through `p1` and `p2`; the source returns 0 when `p1` and `p2` coincide. -/
noncomputable def pointLineDistance (p p1 p2 : Point) : ℝ :=
  let num := |(p2.y - p1.y) * p.x - (p2.x - p1.x) * p.y + p2.x * p1.y - p2.y * p1.x|
  let den := distance p1 p2
  if den = 0 then 0 else num / den

/-- `isCollinear` (line 103): `pointLineDistance(mid, p1, p2) < threshold`. -/
noncomputable def isCollinear (p1 mid p2 : Point) (threshold : ℝ) : Bool :=
  decide (pointLineDistance mid p1 p2 < threshold)

/-- `checkOrder` (line 108): `|dRP + dPG - dRG| < tolerance`. -/
noncomputable def checkOrder (red pink green : Point) (tolerance : ℝ) : Bool :=
  let dRP := distance red pink
  let dPG := distance pink green
  let dRG := distance red green
  decide (|dRP + dPG - dRG| < tolerance)

/-- `checkEqualIntervals` (line 115), with the tolerance obtained from the
input element passed in as a parameter:
`dPG > dRP*min && dPG < dRP*max && dRG > dRP*min*2 && dRG < dRP*max*2`
where `min = 1 - tolerance`, `max = 1 + tolerance`. -/
noncomputable def checkEqualIntervals (red pink green : Point) (tolerance : ℝ) : Bool :=
  let dRP := distance red pink
  let dPG := distance pink green
  let dRG := distance red green
  let mn := 1 - tolerance
  let mx := 1 + tolerance
  decide (dPG > dRP * mn) && decide (dPG < dRP * mx) &&
    decide (dRG > dRP * mn * 2) && decide (dRG < dRP * mx * 2)

/-- The marker set assembled by `detectDots` (line 199): one optional centroid
per colour. -/
structure MarkerSet where
  red : Option Point
  pink : Option Point
  green : Option Point

/-- Validation outcome of the guard chain in `processFrame` (lines 217-272):
`valid` is the branch that draws the heading, `notValidGeometry` is the
"not collinear or in the correct order" message, `insufficientMarkers` is the
"Not all dots detected" message. -/
inductive ValidationResult where
  | valid : ValidationResult
  | notValidGeometry : ValidationResult
  | insufficientMarkers : ValidationResult
deriving DecidableEq

/-- The shape of `processFrame`'s validation (lines 217-223), parametrised by
the geometric check run on the three present points: the outer
`if (dots.red && dots.pink && dots.green)` guard, then the inner geometry
guard. -/
def validateGen (check : Point → Point → Point → Bool) (dots : MarkerSet) :
    ValidationResult :=
  match dots.red, dots.pink, dots.green with
  | some r, some p, some g =>
      if check r p g then ValidationResult.valid else ValidationResult.notValidGeometry
  | _, _, _ => ValidationResult.insufficientMarkers

/-- The validation performed by `processFrame` (lines 217-223):
`isCollinear && checkOrder && checkEqualIntervals`, both threshold-based checks
against `COLLINEARITY_THRESHOLD`; `tol` is the runtime interval tolerance. -/
noncomputable def validate (dots : MarkerSet) (tol : ℝ) : ValidationResult :=
  validateGen
    (fun r p g =>
      isCollinear r p g COLLINEARITY_THRESHOLD &&
        checkOrder r p g COLLINEARITY_THRESHOLD &&
        checkEqualIntervals r p g tol)
    dots

/-- A transient cluster (lines 37-49): running coordinate sums and a pixel
count; the centroid is `(sumX/count, sumY/count)`. -/
structure Cluster where
  sumX : ℝ
  sumY : ℝ
  count : ℕ

/-- The current centroid of a cluster, `(sumX/count, sumY/count)`. -/
noncomputable def Cluster.centroid (c : Cluster) : Point :=
  ⟨c.sumX / (c.count : ℝ), c.sumY / (c.count : ℝ)⟩

/-- `addToClusters` (line 37): scan the clusters in order; accumulate `(x,y)`
into the first whose current centroid is within `threshold`; if none is, push
a fresh cluster `{sumX: x, sumY: y, count: 1}` at the end. -/
noncomputable def addToClusters : List Cluster → ℝ → ℝ → ℝ → List Cluster
  | [], x, y, _ => [⟨x, y, 1⟩]
  | c :: cs, x, y, threshold =>
      if distance ⟨x, y⟩ c.centroid < threshold then
        ⟨c.sumX + x, c.sumY + y, c.count + 1⟩ :: cs
      else
        c :: addToClusters cs x y threshold

/-- A pixel buffer as handed to `clusterColor` (line 53): width, height, and
the flat RGBA byte array `data`, indexed by `(y * width + x) * 4`. -/
structure ImageData where
  width : ℕ
  height : ℕ
  data : ℕ → ℕ

/-- The pixel coordinates visited by the scan loops of `clusterColor`
(lines 57-58): `for (y = 0; y < height; y += 2) for (x = 0; x < width; x += 2)`,
in row-major order. -/
def scanPixels (width height : ℕ) : List (ℕ × ℕ) :=
  (List.range' 0 ((height + 1) / 2) 2).flatMap
    (fun y => (List.range' 0 ((width + 1) / 2) 2).map (fun x => (x, y)))

/-- The colour test applied by `clusterColor` at pixel `(x, y)` (lines 59-63):
read `r`, `g`, `b` at index `(y*width + x)*4` and apply `testFunc`. -/
def pixelMatches (img : ImageData) (testFunc : ℕ → ℕ → ℕ → Bool)
    (p : ℕ × ℕ) : Bool :=
  let index := (p.2 * img.width + p.1) * 4
  testFunc (img.data index) (img.data (index + 1)) (img.data (index + 2))

/-- The cluster list built by `clusterColor`'s pixel loop (lines 54-67): fold
over the scanned pixels, calling `addToClusters` with `CLUSTER_RADIUS` on every
pixel that passes the test. -/
noncomputable def clustersOf (img : ImageData) (testFunc : ℕ → ℕ → ℕ → Bool) :
    List Cluster :=
  (scanPixels img.width img.height).foldl
    (fun cs p =>
      if pixelMatches img testFunc p then
        addToClusters cs (p.1 : ℝ) (p.2 : ℝ) CLUSTER_RADIUS
      else cs)
    []

/-- The best-cluster selection of `clusterColor` (lines 70-73):
`best = clusters[0]`, then replace `best` by any later cluster whose count is
strictly greater. -/
def pickBest (c : Cluster) (cs : List Cluster) : Cluster :=
  (c :: cs).foldl (fun best k => if k.count > best.count then k else best) c

/-- `clusterColor` (line 53): cluster the matching pixels and return the
centroid of the cluster with the most pixels, or `none` when no scanned pixel
matched. -/
noncomputable def clusterColor (img : ImageData) (testFunc : ℕ → ℕ → ℕ → Bool) :
    Option Point :=
  match clustersOf img testFunc with
  | [] => none
  | c :: cs => some (pickBest c cs).centroid

/-- The pivot computation of `processFrame` (lines 230-232).  In the source
`const middleFront = dots.pink` makes `middleFront` an alias of the stored
pink point object, and the two `+=` statements mutate it in place
(`middleFront.x += (dots.red.x - dots.pink.x) / 2`, then the same for `y`,
where `dots.pink` IS `middleFront`).  The embedding threads that mutation
explicitly and returns the pair (pivot, stored pink point after the
computation); by the aliasing both components are the same object. -/
noncomputable def computePivot (red pink : Point) : Point × Point :=
  let middleFront := pink
  let middleFront := { middleFront with x := middleFront.x + (red.x - middleFront.x) / 2 }
  let middleFront := { middleFront with y := middleFront.y + (red.y - middleFront.y) / 2 }
  (middleFront, middleFront)

/-- `Math.atan2(y, x)`, as the argument of the complex number `x + y·i`;
its range is `(-π, π]`. -/
noncomputable def atan2 (y x : ℝ) : ℝ :=
  Complex.arg ⟨x, y⟩

/-- `computeRotation` (line 135): difference of the two `atan2` headings,
converted to degrees, then normalised by the two `if` statements on
lines 139-140. -/
noncomputable def computeRotation (middle red mouse : Point) : ℝ :=
  let currentAngle := atan2 (red.y - middle.y) (red.x - middle.x)
  let targetAngle := atan2 (mouse.y - middle.y) (mouse.x - middle.x)
  let rotation := (targetAngle - currentAngle) * (180 / Real.pi)
  let rotation := if rotation > 180 then rotation - 360 else rotation
  let rotation := if rotation ≤ -180 then rotation + 360 else rotation
  rotation

/-- Steering direction shown by `processFrame`: "right" when the rotation is
positive, "left" otherwise (lines 248, 252-254). -/
inductive Direction where
  | right : Direction
  | left : Direction
deriving DecidableEq

/-- Steering mode shown by `processFrame`: the plain "rotate" message
(`|rotation| < 90`) versus the "turn and then rotate" message. -/
inductive Mode where
  | simple : Mode
  | combined : Mode
deriving DecidableEq

/-- The steering classification extracted from the messages. -/
structure Steering where
  mode : Mode
  direction : Direction
  magnitudePercent : ℤ

/-- The steering classification of `processFrame` (lines 246-258): when
`|rotation| < 90` the simple message with factor
`Math.round(|rotation| / 180 * 100)`, otherwise the combined message with
factor `Math.round((|rotation| - 90) / 180 * 100)`; the direction word is
`rotation > 0 ? "right" : "left"`. -/
noncomputable def steeringOf (rotation : ℝ) : Steering :=
  if |rotation| < 90 then
    ⟨Mode.simple, if rotation > 0 then Direction.right else Direction.left,
      round (|rotation| / 180 * 100)⟩
  else
    ⟨Mode.combined, if rotation > 0 then Direction.right else Direction.left,
      round ((|rotation| - 90) / 180 * 100)⟩

/-- A JavaScript value as relevant to the tolerance lookup: `undefined`,
`null`, `NaN`, or an ordinary number. -/
inductive JSVal where
  | undef : JSVal
  | nullv : JSVal
  | nan : JSVal
  | num : ℝ → JSVal

/-- JS nullish test: true exactly for `undefined` and `null`. -/
def JSVal.isNullish : JSVal → Bool
  | JSVal.undef => true
  | JSVal.nullv => true
  | _ => false

/-- The JS `??` operator: take the right operand exactly when the left is
`null` or `undefined`. -/
def nullishCoalesce (a b : JSVal) : JSVal :=
  if a.isNullish then b else a

/-- Modelled from the spec: `parseFloat` applied to the tolerance input's
string value (not part of the repository source).  It returns a number when
the string parses and `NaN` otherwise; it never returns `null` or `undefined`.
The parse outcome is represented as `Option ℝ`, `none` standing for an
unavailable or unparseable value. -/
def parseFloatResult : Option ℝ → JSVal
  | some x => JSVal.num x
  | none => JSVal.nan

/-- The tolerance expression of `checkEqualIntervals` (lines 120-121):
`parseFloat(intervallToleranceInput.value) ?? intervallTolerance`. -/
def toleranceUsed (parsed : Option ℝ) : JSVal :=
  nullishCoalesce (parseFloatResult parsed) (JSVal.num intervallTolerance)

/-- `checkEqualIntervals` fed a JS-number tolerance.  When the tolerance is
`NaN`, both `1 - tolerance` and `1 + tolerance` are `NaN` and every `<`/`>`
comparison in the conjunction evaluates to false, so the check returns false;
`undefined` and `null` cannot reach this point from `parseFloat` but would
also make every comparison false (`NaN` after arithmetic coercion). -/
noncomputable def checkEqualIntervalsJS (red pink green : Point) : JSVal → Bool
  | JSVal.num t => checkEqualIntervals red pink green t
  | _ => false

/-- A 2-by-2 test buffer whose only scanned pixel (0,0) is pure red
(r = 200, g = 0, b = 0). -/
def imgW : ImageData :=
  ⟨2, 2, fun i => if i = 0 then 200 else 0⟩

theorem distance_horiz (a b : ℝ) (h : a ≤ b) :
    distance ⟨a, 0⟩ ⟨b, 0⟩ = b - a := by
  rw [distance, show ((a - b) ^ 2 + ((0 : ℝ) - 0) ^ 2) = (b - a) ^ 2 by ring,
    Real.sqrt_sq (by linarith)]

/-- C10: the red and pink classifiers are not mutually exclusive: the triple
(r, g, b) = (200, 0, 90) satisfies both `isRed` and `isPink`, so one pixel can
feed both the red and the pink marker clusters. -/
theorem isRed_isPink_overlap :
    ∃ r g b : ℕ, isRed r g b = true ∧ isPink r g b = true :=
  ⟨200, 0, 90, by norm_num [isRed], by norm_num [isPink]⟩

/-- C5 counterexample: at (r, g, b) = (200, 0, 150) the source's `isPink`
accepts although the blue channel (150) is not below half the red value (100),
so `isPink` does not match the claim's characterisation, which requires both
non-dominant channels below half of red. -/
theorem isPink_blue_not_bounded_counterexample :
    isPink 200 0 150 = true ∧ pinkClaimed 200 0 150 = false := by
  exact ⟨by norm_num [isPink], by norm_num [pinkClaimed]⟩

/-- C5 (amended): `isPink` returns true exactly when red is the maximum
channel, that maximum is at least the brightness floor 110, the green channel
is below half the red value, and the blue channel is above 80; the source
places no upper bound on the blue channel. -/
theorem isPink_characterization (r g b : ℕ) :
    isPink r g b = true ↔
      110 ≤ Nat.max r (Nat.max g b) ∧ r = Nat.max r (Nat.max g b) ∧
        (80 : ℚ) < (b : ℚ) ∧ (g : ℚ) < (r : ℚ) * 0.5 := by
  simp [isPink, and_assoc]

/-- C3 counterexample: with red = (10, 0) and original pink = (0, 0), the
stored pink point after the pivot computation is the pivot (5, 0), not the
original (0, 0): `middleFront` aliases `dots.pink`, so the `+=` updates mutate
the stored centroid. -/
theorem pivot_mutates_pink_counterexample :
    (computePivot ⟨10, 0⟩ ⟨0, 0⟩).2 ≠ (⟨0, 0⟩ : Point) := by
  intro h
  have hx := congrArg Point.x h
  rw [computePivot] at hx
  norm_num at hx

/-- C3 (amended): the pivot is the midpoint `pink + (red - pink)/2` in both
coordinates, but the marker set's stored pink centroid does NOT stay
unchanged: it is mutated in place and ends up equal to the pivot. -/
theorem computePivot_midpoint_and_mutation (red pink : Point) :
    (computePivot red pink).1 =
        ⟨pink.x + (red.x - pink.x) / 2, pink.y + (red.y - pink.y) / 2⟩ ∧
      (computePivot red pink).2 = (computePivot red pink).1 :=
  ⟨rfl, rfl⟩

/-- C7: the steering classification of `processFrame`: below 90 degrees of
absolute rotation the mode is simple with factor
`round(|rotation| / 180 * 100)`, otherwise combined with factor
`round((|rotation| - 90) / 180 * 100)`; the direction is right exactly for a
positive rotation, left otherwise. -/
theorem steering_classification (rotation : ℝ) :
    (|rotation| < 90 →
        (steeringOf rotation).mode = Mode.simple ∧
          (steeringOf rotation).magnitudePercent = round (|rotation| / 180 * 100)) ∧
      (90 ≤ |rotation| →
        (steeringOf rotation).mode = Mode.combined ∧
          (steeringOf rotation).magnitudePercent =
            round ((|rotation| - 90) / 180 * 100)) ∧
      (0 < rotation → (steeringOf rotation).direction = Direction.right) ∧
      (rotation ≤ 0 → (steeringOf rotation).direction = Direction.left) := by
  refine ⟨fun h => ?_, fun h => ?_, fun h => ?_, fun h => ?_⟩
  · simp [steeringOf, h]
  · simp [steeringOf, not_lt.mpr h]
  · by_cases hm : |rotation| < 90 <;> simp [steeringOf, hm, h]
  · have h2 : ¬ 0 < rotation := not_lt.mpr h
    by_cases hm : |rotation| < 90 <;> simp [steeringOf, hm, h2]

/-- Witness for C7 at rotation 45: simple mode, direction right, factor
`round(|45| / 180 * 100)`. -/
theorem steering_classification_witness :
    ((steeringOf 45).mode = Mode.simple ∧
        (steeringOf 45).magnitudePercent = round (|(45 : ℝ)| / 180 * 100)) ∧
      (steeringOf 45).direction = Direction.right :=
  ⟨(steering_classification 45).1 (by rw [abs_of_pos] <;> norm_num),
    (steering_classification 45).2.2.1 (by norm_num)⟩

/-- C8: the fallback to the default interval tolerance is dead code.
`parseFloat` yields NaN (never null or undefined) on an unavailable or
unparseable input, so `??` keeps the NaN, the tolerance is not 0.8, and
`checkEqualIntervals` simply returns false; when the input parses, the parsed
value is used.  The claimed fallback to `intervallTolerance` (0.8) never
happens. -/
theorem tolerance_fallback_dead :
    toleranceUsed none = JSVal.nan ∧
      JSVal.nan ≠ JSVal.num intervallTolerance ∧
      (∀ red pink green : Point,
        checkEqualIntervalsJS red pink green (toleranceUsed none) = false) ∧
      ∀ x : ℝ, toleranceUsed (some x) = JSVal.num x :=
  ⟨rfl, fun h => JSVal.noConfusion h, fun _ _ _ => rfl, fun _ => rfl⟩

/-- C4 counterexample: with tol = 0.1 and points giving dRP = 50, dPG = 56
(red (0,0), pink (50,0), green (106,0)), the equal-intervals check returns
false — 56 lies outside the open band (45, 55) — although the claim asserts
this input passes. -/
theorem checkEqualIntervals_56_counterexample :
    distance ⟨0, 0⟩ ⟨50, 0⟩ = 50 ∧ distance ⟨50, 0⟩ ⟨106, 0⟩ = 56 ∧
      checkEqualIntervals ⟨0, 0⟩ ⟨50, 0⟩ ⟨106, 0⟩ 0.1 = false := by
  refine ⟨by norm_num [distance_horiz], by norm_num [distance_horiz], ?_⟩
  norm_num [checkEqualIntervals, distance_horiz]

/-- C4 (amended): the equal-intervals check accepts exactly when dPG lies
strictly inside (dRP·(1−tol), dRP·(1+tol)) and dRG lies strictly inside
(2·dRP·(1−tol), 2·dRP·(1+tol)); with tol = 0.1 and dRP = 50, dPG = 54 (within
10 percent) passes, while dPG = 56 and dPG = 70 fail. -/
theorem checkEqualIntervals_characterization :
    (∀ (red pink green : Point) (tol : ℝ),
        checkEqualIntervals red pink green tol = true ↔
          (distance red pink * (1 - tol) < distance pink green ∧
            distance pink green < distance red pink * (1 + tol) ∧
            2 * (distance red pink * (1 - tol)) < distance red green ∧
            distance red green < 2 * (distance red pink * (1 + tol)))) ∧
      checkEqualIntervals ⟨0, 0⟩ ⟨50, 0⟩ ⟨104, 0⟩ 0.1 = true ∧
      checkEqualIntervals ⟨0, 0⟩ ⟨50, 0⟩ ⟨106, 0⟩ 0.1 = false ∧
      checkEqualIntervals ⟨0, 0⟩ ⟨50, 0⟩ ⟨120, 0⟩ 0.1 = false := by
  refine ⟨fun red pink green tol => ?_, ?_, ?_, ?_⟩
  · simp only [checkEqualIntervals, Bool.and_eq_true, decide_eq_true_eq, gt_iff_lt]
    constructor
    · rintro ⟨⟨⟨h1, h2⟩, h3⟩, h4⟩
      exact ⟨h1, h2, by linarith, by linarith⟩
    · rintro ⟨h1, h2, h3, h4⟩
      exact ⟨⟨⟨h1, h2⟩, by linarith⟩, by linarith⟩
  · norm_num [checkEqualIntervals, distance_horiz]
  · norm_num [checkEqualIntervals, distance_horiz]
  · norm_num [checkEqualIntervals, distance_horiz]

/-- C1: a valid verdict implies both that the perpendicular distance from pink
to the red-green line is strictly below `COLLINEARITY_THRESHOLD` (50) and that
`|dRP + dPG − dRG|` is strictly below the same threshold; the collinear triple
(0,0), (50,0), (100,0) passes both checks, while pink at (50,60) fails the
collinearity check with threshold 50. -/
theorem validate_collinearity_ordering_gate :
    (∀ (r p g : Point) (tol : ℝ),
        validate ⟨some r, some p, some g⟩ tol = ValidationResult.valid →
          pointLineDistance p r g < COLLINEARITY_THRESHOLD ∧
            |distance r p + distance p g - distance r g| < COLLINEARITY_THRESHOLD) ∧
      COLLINEARITY_THRESHOLD = 50 ∧
      isCollinear ⟨0, 0⟩ ⟨50, 0⟩ ⟨100, 0⟩ 50 = true ∧
      checkOrder ⟨0, 0⟩ ⟨50, 0⟩ ⟨100, 0⟩ 50 = true ∧
      isCollinear ⟨0, 0⟩ ⟨50, 60⟩ ⟨100, 0⟩ 50 = false := by
  refine ⟨?_, rfl, ?_, ?_, ?_⟩
  · intro r p g tol h
    simp only [validate, validateGen] at h
    split at h
    · rename_i hb
      simp only [Bool.and_eq_true, isCollinear, checkOrder, decide_eq_true_eq] at hb
      exact ⟨hb.1.1, hb.1.2⟩
    · exact absurd h (by simp)
  · norm_num [isCollinear, pointLineDistance, distance_horiz]
  · norm_num [checkOrder, distance_horiz]
  · norm_num [isCollinear, pointLineDistance, distance_horiz]

/-- Witness for C1: the triple red (0,0), pink (50,0), green (100,0) validates
with the default tolerance 0.8, so the gate yields both bounds there. -/
theorem validate_collinearity_ordering_gate_witness :
    pointLineDistance ⟨50, 0⟩ ⟨0, 0⟩ ⟨100, 0⟩ < COLLINEARITY_THRESHOLD ∧
      |distance ⟨0, 0⟩ ⟨50, 0⟩ + distance ⟨50, 0⟩ ⟨100, 0⟩ -
          distance ⟨0, 0⟩ ⟨100, 0⟩| < COLLINEARITY_THRESHOLD :=
  validate_collinearity_ordering_gate.1 ⟨0, 0⟩ ⟨50, 0⟩ ⟨100, 0⟩ 0.8
    (by norm_num [validate, validateGen, isCollinear, checkOrder,
      checkEqualIntervals, pointLineDistance, COLLINEARITY_THRESHOLD, distance_horiz])

/-- C9: when any of the three markers is absent the validation returns the
insufficient-markers outcome, for EVERY geometric check function — so no
geometric computation influences (or is needed for) the result; and `validate`
is that scheme instantiated with the source's collinearity, ordering and
interval checks. -/
theorem validate_missing_markers :
    (∀ (check : Point → Point → Point → Bool) (dots : MarkerSet),
        (dots.red = none ∨ dots.pink = none ∨ dots.green = none) →
          validateGen check dots = ValidationResult.insufficientMarkers) ∧
      ∀ (dots : MarkerSet) (tol : ℝ),
        validate dots tol =
          validateGen
            (fun r p g =>
              isCollinear r p g COLLINEARITY_THRESHOLD &&
                checkOrder r p g COLLINEARITY_THRESHOLD &&
                checkEqualIntervals r p g tol)
            dots := by
  constructor
  · rintro check ⟨red, pink, green⟩ h
    rcases red with _ | r <;> rcases pink with _ | p <;> rcases green with _ | g <;>
      first
        | rfl
        | simp_all
  · intro dots tol
    rfl

/-- Witness for C9: a marker set with pink absent maps to the
insufficient-markers outcome under an arbitrary geometric check. -/
theorem validate_missing_markers_witness :
    validateGen (fun _ _ _ => true) ⟨some ⟨1, 2⟩, none, some ⟨3, 4⟩⟩ =
      ValidationResult.insufficientMarkers :=
  validate_missing_markers.1 (fun _ _ _ => true) ⟨some ⟨1, 2⟩, none, some ⟨3, 4⟩⟩
    (Or.inr (Or.inl rfl))

theorem normalize_aux (d : ℝ) (h1 : -360 < d) (h2 : d < 360) :
    (if (if d > 180 then d - 360 else d) ≤ -180
      then (if d > 180 then d - 360 else d) + 360
      else (if d > 180 then d - 360 else d)) ∈ Set.Ioc (-180 : ℝ) 180 := by
  by_cases ha : d > 180
  · rw [if_pos ha, if_neg (by linarith)]
    constructor <;> [linarith; linarith]
  · rw [if_neg ha]
    push_neg at ha
    by_cases hb : d ≤ -180
    · rw [if_pos hb]
      constructor <;> [linarith; linarith]
    · rw [if_neg hb]
      push_neg at hb
      constructor <;> [linarith; linarith]

/-- C6: over all inputs — so over every pair of `atan2` angles, each of which
lies in (−π, π] — the normalised rotation lies in the half-open interval
(-180, 180]; in particular an angle difference of exactly π degrees to 180
stays at 180 (red at (10,0), mouse at (-10,0), pivot at the origin). -/
theorem computeRotation_range :
    (∀ middle red mouse : Point,
        computeRotation middle red mouse ∈ Set.Ioc (-180 : ℝ) 180) ∧
      computeRotation ⟨0, 0⟩ ⟨10, 0⟩ ⟨-10, 0⟩ = 180 := by
  constructor
  · intro middle red mouse
    have h1 := Complex.arg_mem_Ioc ⟨red.x - middle.x, red.y - middle.y⟩
    have h2 := Complex.arg_mem_Ioc ⟨mouse.x - middle.x, mouse.y - middle.y⟩
    simp only [computeRotation, atan2]
    set ca := Complex.arg ⟨red.x - middle.x, red.y - middle.y⟩
    set ta := Complex.arg ⟨mouse.x - middle.x, mouse.y - middle.y⟩
    obtain ⟨hca1, hca2⟩ := h1
    obtain ⟨hta1, hta2⟩ := h2
    have hpi : (0 : ℝ) < 180 / Real.pi := by positivity
    have hub : ta - ca < 2 * Real.pi := by linarith
    have hlb : -(2 * Real.pi) < ta - ca := by linarith
    have hd2 : (ta - ca) * (180 / Real.pi) < 360 := by
      calc (ta - ca) * (180 / Real.pi) < 2 * Real.pi * (180 / Real.pi) :=
            mul_lt_mul_of_pos_right hub hpi
        _ = 360 := by field_simp; ring
    have hd1 : -360 < (ta - ca) * (180 / Real.pi) := by
      calc (-360 : ℝ) = -(2 * Real.pi) * (180 / Real.pi) := by field_simp; ring
        _ < (ta - ca) * (180 / Real.pi) := mul_lt_mul_of_pos_right hlb hpi
    exact normalize_aux _ hd1 hd2
  · simp only [computeRotation, atan2]
    have e1 : (⟨(10 : ℝ) - 0, (0 : ℝ) - 0⟩ : ℂ) = ((10 : ℝ) : ℂ) := by
      apply Complex.ext <;> simp
    have e2 : (⟨(-10 : ℝ) - 0, (0 : ℝ) - 0⟩ : ℂ) = ((-10 : ℝ) : ℂ) := by
      apply Complex.ext <;> simp
    have ha : Complex.arg ((10 : ℝ) : ℂ) = 0 :=
      Complex.arg_ofReal_of_nonneg (by norm_num)
    have hb : Complex.arg ((-10 : ℝ) : ℂ) = Real.pi :=
      Complex.arg_ofReal_of_neg (by norm_num)
    rw [e1, e2, ha, hb, sub_zero]
    have hpi : Real.pi * (180 / Real.pi) = 180 := by
      field_simp
    rw [hpi]
    norm_num

theorem addToClusters_ne_nil (cs : List Cluster) (x y t : ℝ) :
    addToClusters cs x y t ≠ [] := by
  cases cs with
  | nil => simp [addToClusters]
  | cons c cs =>
    simp only [addToClusters]
    split <;> simp

theorem addToClusters_new (cs : List Cluster) (x y t : ℝ)
    (h : ∀ c ∈ cs, ¬ distance ⟨x, y⟩ c.centroid < t) :
    addToClusters cs x y t = cs ++ [⟨x, y, 1⟩] := by
  induction cs with
  | nil => simp [addToClusters]
  | cons c cs ih =>
    simp only [addToClusters]
    rw [if_neg (h c (by simp)), ih (fun k hk => h k (by simp [hk]))]
    simp

theorem addToClusters_accumulate (cs₁ : List Cluster) (c : Cluster)
    (cs₂ : List Cluster) (x y t : ℝ)
    (h₁ : ∀ k ∈ cs₁, ¬ distance ⟨x, y⟩ k.centroid < t)
    (h₂ : distance ⟨x, y⟩ c.centroid < t) :
    addToClusters (cs₁ ++ c :: cs₂) x y t =
      cs₁ ++ ⟨c.sumX + x, c.sumY + y, c.count + 1⟩ :: cs₂ := by
  induction cs₁ with
  | nil =>
    simp only [List.nil_append, addToClusters]
    rw [if_pos h₂]
  | cons a cs₁ ih =>
    simp only [List.cons_append, addToClusters]
    rw [if_neg (h₁ a (by simp)), List.append_eq,
      ih (fun k hk => h₁ k (by simp [hk]))]

theorem clustersFold_eq_nil (img : ImageData) (f : ℕ → ℕ → ℕ → Bool)
    (l : List (ℕ × ℕ)) (acc : List Cluster) :
    l.foldl
        (fun cs p =>
          if pixelMatches img f p then
            addToClusters cs (p.1 : ℝ) (p.2 : ℝ) CLUSTER_RADIUS
          else cs) acc = [] ↔
      acc = [] ∧ ∀ p ∈ l, pixelMatches img f p = false := by
  induction l generalizing acc with
  | nil => simp
  | cons p l ih =>
    rw [List.foldl_cons, ih]
    by_cases hm : pixelMatches img f p = true
    · simp [hm, addToClusters_ne_nil]
    · rw [Bool.not_eq_true] at hm
      simp [hm]

theorem argmax_fold_spec (l : List Cluster) (acc : Cluster) :
    (l.foldl (fun best k => if k.count > best.count then k else best) acc) ∈ acc :: l ∧
      (∀ k ∈ acc :: l,
        k.count ≤
          (l.foldl (fun best k => if k.count > best.count then k else best) acc).count) ∧
      ∃ l₁ l₂,
        acc :: l =
            l₁ ++ (l.foldl (fun best k => if k.count > best.count then k else best) acc) :: l₂ ∧
          ∀ k ∈ l₁,
            k.count <
              (l.foldl (fun best k => if k.count > best.count then k else best) acc).count := by
  induction l generalizing acc with
  | nil =>
    refine ⟨by simp, by simp, [], [], by simp, by simp⟩
  | cons k l ih =>
    rw [List.foldl_cons]
    obtain ⟨hmem, hmax, l₁, l₂, hsplit, hlt⟩ := ih (if k.count > acc.count then k else acc)
    generalize hE : List.foldl (fun best k => if k.count > best.count then k else best)
        (if k.count > acc.count then k else acc) l = r at hmem hmax hsplit hlt ⊢
    by_cases hpos : k.count > acc.count
    · rw [if_pos hpos] at hmem hmax hsplit
      have hkr : k.count ≤ r.count := hmax k (by simp)
      refine ⟨?_, ?_, acc :: l₁, l₂, ?_, ?_⟩
      · rcases List.mem_cons.mp hmem with h | h
        · rw [h]; simp
        · simp [h]
      · intro m hm
        rcases List.mem_cons.mp hm with h | hm2
        · subst h; exact le_of_lt (lt_of_lt_of_le hpos hkr)
        · rcases List.mem_cons.mp hm2 with h | h
          · subst h; exact hkr
          · exact hmax m (by simp [h])
      · rw [List.cons_append, ← hsplit]
      · intro m hm
        rcases List.mem_cons.mp hm with h | h
        · subst h
          exact lt_of_lt_of_le hpos hkr
        · exact hlt m h
    · rw [if_neg hpos] at hmem hmax hsplit
      push_neg at hpos
      rcases l₁ with _ | ⟨a, l₁t⟩
      · simp only [List.nil_append] at hsplit
        injection hsplit with hracc hl₂
        refine ⟨?_, ?_, [], k :: l₂, ?_, by simp⟩
        · rw [← hracc]; simp
        · intro m hm
          rcases List.mem_cons.mp hm with h | hm2
          · subst h; exact hmax m (by simp)
          · rcases List.mem_cons.mp hm2 with h | h
            · subst h; rw [← hracc]; exact hpos
            · exact hmax m (by simp [h])
        · simp [hracc, hl₂]
      · rw [List.cons_append] at hsplit
        injection hsplit with ha htail
        have haccr : acc.count < r.count := by
          rw [ha]; exact hlt a (by simp)
        refine ⟨?_, ?_, acc :: k :: l₁t, l₂, ?_, ?_⟩
        · rcases List.mem_cons.mp hmem with h | h
          · rw [h]; simp
          · simp [h]
        · intro m hm
          rcases List.mem_cons.mp hm with h | hm2
          · subst h; exact hmax m (by simp)
          · rcases List.mem_cons.mp hm2 with h | h
            · subst h; exact le_trans hpos (le_of_lt haccr)
            · exact hmax m (by simp [h])
        · rw [List.cons_append, List.cons_append, ← htail]
        · intro m hm
          rcases List.mem_cons.mp hm with h | hm2
          · subst h; exact haccr
          · rcases List.mem_cons.mp hm2 with h | h
            · subst h; exact lt_of_le_of_lt hpos haccr
            · exact hlt m (by simp [h])

theorem pickBest_eq (c : Cluster) (cs : List Cluster) :
    pickBest c cs =
      cs.foldl (fun best k => if k.count > best.count then k else best) c := by
  rw [pickBest, List.foldl_cons, ite_self]

/-- C2: (1) a matching pixel within reach of no existing centroid starts a new
cluster at the end of the list; (2) a matching pixel is accumulated into the
FIRST cluster (in creation order) whose current centroid lies within the merge
radius; (3) `clusterColor` returns none exactly when no scanned pixel matched
the predicate; (4) a returned point is the centroid of a cluster with maximal
pixel count such that every cluster created before it has strictly smaller
count — ties go to the first-created cluster. -/
theorem clusterColor_spec :
    (∀ (cs : List Cluster) (x y t : ℝ),
        (∀ c ∈ cs, ¬ distance ⟨x, y⟩ c.centroid < t) →
          addToClusters cs x y t = cs ++ [⟨x, y, 1⟩]) ∧
      (∀ (cs₁ : List Cluster) (c : Cluster) (cs₂ : List Cluster) (x y t : ℝ),
        (∀ k ∈ cs₁, ¬ distance ⟨x, y⟩ k.centroid < t) →
          distance ⟨x, y⟩ c.centroid < t →
          addToClusters (cs₁ ++ c :: cs₂) x y t =
            cs₁ ++ ⟨c.sumX + x, c.sumY + y, c.count + 1⟩ :: cs₂) ∧
      (∀ (img : ImageData) (f : ℕ → ℕ → ℕ → Bool),
        clusterColor img f = none ↔
          ∀ p ∈ scanPixels img.width img.height, pixelMatches img f p = false) ∧
      ∀ (img : ImageData) (f : ℕ → ℕ → ℕ → Bool) (pt : Point),
        clusterColor img f = some pt →
          ∃ best l₁ l₂,
            clustersOf img f = l₁ ++ best :: l₂ ∧
              (∀ k ∈ clustersOf img f, k.count ≤ best.count) ∧
              (∀ k ∈ l₁, k.count < best.count) ∧
              pt = best.centroid := by
  refine ⟨addToClusters_new, addToClusters_accumulate, ?_, ?_⟩
  · intro img f
    have h1 : clusterColor img f = none ↔ clustersOf img f = [] := by
      unfold clusterColor
      cases h : clustersOf img f <;> simp
    rw [h1, clustersOf, clustersFold_eq_nil]
    simp
  · intro img f pt h
    rcases hcl : clustersOf img f with _ | ⟨c, cs⟩
    · have hnone : clusterColor img f = none := by
        unfold clusterColor
        rw [hcl]
      rw [hnone] at h
      exact Option.noConfusion h
    · have hform : clusterColor img f = some (pickBest c cs).centroid := by
        unfold clusterColor
        rw [hcl]
      rw [hform] at h
      have hpt := Option.some.inj h
      obtain ⟨hmem, hmax, l₁, l₂, hsplit, hlt⟩ := argmax_fold_spec cs c
      rw [← pickBest_eq] at hmax hsplit hlt
      exact ⟨pickBest c cs, l₁, l₂, hsplit, hmax, hlt, hpt.symm⟩

/-- Witness for C2: a pixel with no cluster in reach starts a new cluster, and
on the 2-by-2 buffer `imgW` (single red pixel at the origin) the returned
centroid (0,0) is that of a first-created maximal cluster. -/
theorem clusterColor_spec_witness :
    addToClusters [] 5 6 100 = [⟨5, 6, 1⟩] ∧
      ∃ best l₁ l₂,
        clustersOf imgW isRed = l₁ ++ best :: l₂ ∧
          (∀ k ∈ clustersOf imgW isRed, k.count ≤ best.count) ∧
          (∀ k ∈ l₁, k.count < best.count) ∧
          (⟨0, 0⟩ : Point) = best.centroid :=
  ⟨clusterColor_spec.1 [] 5 6 100 (by simp),
    clusterColor_spec.2.2.2 imgW isRed ⟨0, 0⟩ (by
      have h1 : scanPixels imgW.width imgW.height = [(0, 0)] := by rfl
      have h2 : pixelMatches imgW isRed (0 : ℕ × ℕ) = true := by
        norm_num [pixelMatches, imgW, isRed]
      have h3 : clustersOf imgW isRed = [⟨0, 0, 1⟩] := by
        rw [clustersOf, h1]
        simp [h2, addToClusters]
      unfold clusterColor
      rw [h3]
      simp [pickBest, Cluster.centroid])⟩
